import Mathlib

/-
Verification development for the vedic-astrology service.

The embedding below follows the TypeScript source:
  * `validateAstrologyInput`, `calculateAtmakarak`, `getVedicAstrologyData`
    from the full service module (with validity filtering),
  * the second, coercing `calculateAtmakarak` from the simpler module,
  * the `/astrology-data` endpoint of the categorized server
    (`validateInput`, status classification from the error message).

JavaScript numbers are modelled as exact rationals extended with NaN and
the two infinities; JavaScript dynamic values that can sit in a degree
field are modelled by `JSVal`.  Charts are either a falsy / non-object
value, an object whose `meta` is absent, or an object with a `meta`
mapping from body codes to entries.
-/

namespace VedicService

/-- A JavaScript number: a finite value (exact rational), NaN, or an
infinity.  `typeof` of each of these is the string `number`. -/
inductive JSNum where
  | fin (q : ℚ)
  | nan
  | posInf
  | negInf
deriving DecidableEq, Repr

/-- A JavaScript value that can occupy a `degree` field: a number, the
`null` literal, or a non-number value whose `parseFloat(String(v))`
result is recorded in the constructor (every JavaScript value determines
that result). -/
inductive JSVal where
  | num (n : JSNum)
  | jsNull
  | nonNum (pf : JSNum)
deriving DecidableEq, Repr

/-- The body codes the service reads from the chart `meta` mapping: the
seven classical planets plus the ascendant code `As`. -/
inductive Body where
  | Su | Mo | Ma | Me | Ju | Ve | Sa | As
deriving DecidableEq, Repr

/-- One `meta` entry: an object that may carry a `degree` field and a
`rashi` field. -/
structure Entry where
  degree : Option JSVal := none
  rashi : Option String := none
deriving DecidableEq, Repr

/-- A chart value as received from the collaborator: `notObject` is a
null / undefined / otherwise falsy or non-object value, `noMeta` is an
object whose `meta` is null or undefined, and `withMeta` carries the
`meta` mapping (absent keys map to `none`). -/
inductive Chart where
  | notObject
  | noMeta
  | withMeta (meta : Body → Option Entry)

/-- The seven candidate planets in the fixed iteration order of the
source: `['Su', 'Mo', 'Ma', 'Me', 'Ju', 'Ve', 'Sa']`. -/
def planets : List Body := [.Su, .Mo, .Ma, .Me, .Ju, .Ve, .Sa]

/-- The `planetNames` lookup: two-letter code to full English name, with
the `|| 'Sun'` fallback for any code outside the table (here `As`). -/
def planetName : Body → String
  | .Su => "Sun"
  | .Mo => "Moon"
  | .Ma => "Mars"
  | .Me => "Mercury"
  | .Ju => "Jupiter"
  | .Ve => "Venus"
  | .Sa => "Saturn"
  | .As => "Sun"

/-- The `degree` field of `meta[b]`: `none` when the entry or the field
is absent. -/
def metaDegree (meta : Body → Option Entry) (b : Body) : Option JSVal :=
  (meta b).bind (fun e => e.degree)

/-- The validity filter of the filtering `calculateAtmakarak`: the entry
and its `degree` must be present, the degree must have `typeof`
`number`, survive `parseFloat` without becoming NaN, and lie in
[0, 360]; the finite value is returned, anything else is skipped. -/
def validDegree (meta : Body → Option Entry) (b : Body) : Option ℚ :=
  match metaDegree meta b with
  | some (.num (.fin q)) => if 0 ≤ q ∧ q ≤ 360 then some q else none
  | _ => none

/-- One iteration of the filtering scan: state is (running maximum,
running winner, count of planets with valid data).  A planet with no
valid degree leaves the state unchanged; a valid degree is compared
strictly against the running maximum. -/
def scanStep (meta : Body → Option Entry) (st : ℚ × Body × ℕ) (b : Body) :
    ℚ × Body × ℕ :=
  match validDegree meta b with
  | none => st
  | some q => if st.1 < q then (q, b, st.2.2 + 1) else (st.1, st.2.1, st.2.2 + 1)

/-- The filtering `calculateAtmakarak`: default chart checks, then a
scan over the seven planets with maximum initialized to `0` and winner
initialized to Sun; if no planet had valid data the default `Sun` is
returned, otherwise the winning code is mapped to its full name.  The
function is total, mirroring the `try`/`catch` wrapper that turns any
fault into the `Sun` default. -/
def calculateAtmakarak : Chart → String
  | .notObject => "Sun"
  | .noMeta => "Sun"
  | .withMeta meta =>
    let st := planets.foldl (scanStep meta) (0, .Su, 0)
    if st.2.2 = 0 then "Sun" else planetName st.2.1

/-- Valid degree of a planet at the `Chart` level: `none` for charts
without a usable `meta` mapping. -/
def chartValidDegree : Chart → Body → Option ℚ
  | .notObject, _ => none
  | .noMeta, _ => none
  | .withMeta meta, b => validDegree meta b

/-- The numeric result of `parseFloat(String(v ?? '0'))` for a degree
field value `v` in the coercing version: `null` falls back to `'0'`,
numbers reparse to themselves, other values parse to their recorded
`parseFloat` result. -/
def coerceVal : JSVal → JSNum
  | .num n => n
  | .jsNull => .fin 0
  | .nonNum pf => pf

/-- The degree the coercing `calculateAtmakarak` uses for a planet:
a missing entry or missing field becomes `0`. -/
def v2degree (meta : Body → Option Entry) (b : Body) : JSNum :=
  match metaDegree meta b with
  | none => .fin 0
  | some v => coerceVal v

/-- The JavaScript `>` comparison on numbers: false whenever either side
is NaN, with the usual infinity ordering. -/
def jsGt : JSNum → JSNum → Bool
  | .fin a, .fin b => b < a
  | .fin _, .negInf => true
  | .posInf, .fin _ => true
  | .posInf, .negInf => true
  | _, _ => false

/-- One iteration of the coercing scan: state is (running maximum as a
JavaScript number, running winner). -/
def v2step (meta : Body → Option Entry) (st : JSNum × Body) (b : Body) :
    JSNum × Body :=
  let d := v2degree meta b
  if jsGt d st.1 then (d, b) else st

/-- The coercing `calculateAtmakarak` of the simpler module.  It reads
`birthChart.meta[planet]` without any structural check, so a falsy or
non-object chart, or a chart whose `meta` is null or undefined, makes
the property access raise; that is modelled by `none`. -/
def calculateAtmakarakV2 : Chart → Option String
  | .notObject => none
  | .noMeta => none
  | .withMeta meta =>
    some (planetName (planets.foldl (v2step meta) (.fin 0, .Su)).2)

/-- Digit value of a character (only used on characters that passed
`Char.isDigit`). -/
def digitVal (c : Char) : ℕ := c.toNat - 48

/-- The `/^\d{4}-\d{2}-\d{2}$/` match combined with extraction of the
numeric year, month and day fields. -/
def dateFields (s : String) : Option (ℕ × ℕ × ℕ) :=
  match s.toList with
  | [y1, y2, y3, y4, '-', m1, m2, '-', d1, d2] =>
    if y1.isDigit && y2.isDigit && y3.isDigit && y4.isDigit &&
        m1.isDigit && m2.isDigit && d1.isDigit && d2.isDigit then
      some (digitVal y1 * 1000 + digitVal y2 * 100 + digitVal y3 * 10 + digitVal y4,
            digitVal m1 * 10 + digitVal m2,
            digitVal d1 * 10 + digitVal d2)
    else none
  | _ => none

/-- Gregorian leap-year rule, as used by the ISO date parser of the
JavaScript engine. -/
def isLeapYear (y : ℕ) : Bool :=
  y % 4 = 0 && (y % 100 ≠ 0 || y % 400 = 0)

/-- Number of days of a month. -/
def daysInMonth (y m : ℕ) : ℕ :=
  if m = 2 then (if isLeapYear y then 29 else 28)
  else if m = 4 ∨ m = 6 ∨ m = 9 ∨ m = 11 then 30
  else 31

/-- Whether `new Date("YYYY-MM-DD")` yields a valid date: the engine
rejects ISO strings whose month or day-of-month is out of range. -/
def validCalendarDate (y m d : ℕ) : Bool :=
  1 ≤ m && m ≤ 12 && 1 ≤ d && d ≤ daysInMonth y m

/-- Violations produced for the date string: required / format / parse /
year-range checks.  An unparseable date has a NaN `getFullYear`, so the
year-range comparison is silently false and only the parse violation is
emitted.  `getFullYear` is modelled as the textual year of the ISO
string. -/
def dateErrors (s : String) : List String :=
  if s = "" then ["Date string is required"]
  else
    match dateFields s with
    | none => ["Date must be in YYYY-MM-DD format"]
    | some (y, m, d) =>
      if !validCalendarDate y m d then ["Invalid date provided"]
      else if y < 1900 ∨ y > 2100 then ["Date must be between 1900 and 2100"]
      else []

/-- The `/^\d{2}:\d{2}:\d{2}$/` match combined with extraction of the
numeric hour, minute and second fields (two digits each, hence always
nonnegative). -/
def timeFields (s : String) : Option (ℕ × ℕ × ℕ) :=
  match s.toList with
  | [h1, h2, ':', m1, m2, ':', s1, s2] =>
    if h1.isDigit && h2.isDigit && m1.isDigit && m2.isDigit &&
        s1.isDigit && s2.isDigit then
      some (digitVal h1 * 10 + digitVal h2,
            digitVal m1 * 10 + digitVal m2,
            digitVal s1 * 10 + digitVal s2)
    else none
  | _ => none

/-- Violations produced for the time string: required / format checks,
then one independent range check per component. -/
def timeErrors (s : String) : List String :=
  if s = "" then ["Time string is required"]
  else
    match timeFields s with
    | none => ["Time must be in HH:MM:SS format"]
    | some (h, m, sec) =>
      (if 23 < h then ["Hours must be between 00 and 23"] else []) ++
      (if 59 < m then ["Minutes must be between 00 and 59"] else []) ++
      (if 59 < sec then ["Seconds must be between 00 and 59"] else [])

/-- Violations for a numeric field: NaN fails the `isNaN` check, a
finite value is range-checked, and either infinity falls outside any
finite range. -/
def numErrors (n : JSNum) (lo hi : ℚ) (invalidMsg rangeMsg : String) :
    List String :=
  match n with
  | .nan => [invalidMsg]
  | .fin q => if q < lo ∨ hi < q then [rangeMsg] else []
  | .posInf => [rangeMsg]
  | .negInf => [rangeMsg]

/-- Violations for the latitude field. -/
def latErrors (n : JSNum) : List String :=
  numErrors n (-90) 90
    "Latitude must be a valid number" "Latitude must be between -90 and 90"

/-- Violations for the longitude field. -/
def lngErrors (n : JSNum) : List String :=
  numErrors n (-180) 180
    "Longitude must be a valid number" "Longitude must be between -180 and 180"

/-- Violations for the timezone field. -/
def timezoneErrors (n : JSNum) : List String :=
  numErrors n (-12) 14
    "Timezone must be a valid number" "Timezone must be between -12 and 14"

/-- `validateAstrologyInput`: all field checks run; the violation lists
are concatenated in source order (date, time, latitude, longitude,
timezone). -/
def validateAstrologyInput (dateString timeString : String)
    (lat lng timezone : JSNum) : List String :=
  dateErrors dateString ++ timeErrors timeString ++
  latErrors lat ++ lngErrors lng ++ timezoneErrors timezone

/-- Substring test on character lists, mirroring `String.includes`. -/
def hasSubList (pat : List Char) : List Char → Bool
  | [] => pat.isEmpty
  | c :: t => pat.isPrefixOf (c :: t) || hasSubList pat t

/-- `s.includes(pat)` for strings. -/
def strContains (s pat : String) : Bool :=
  hasSubList pat.toList s.toList

/-- Behavior of `vedicAstrology.positioner.getBirthChart` on one call:
either it raises with a message or it returns a chart value. -/
inductive ChartOutcome where
  | throws (msg : String)
  | returns (c : Chart)

/-- The state of the external package: whether the
`vedicAstrology.positioner.getBirthChart` chain of properties is
present, and what a call does. -/
structure Package where
  available : Bool
  outcome : ChartOutcome

/-- Result of `getVedicAstrologyData`: the summary on success, or the
message of the raised error. -/
structure Summary where
  moonSign : String
  sunSign : String
  ascendant : String
  atmakarak : String
  birthChart : Chart

/-- Success or raised error of the service call. -/
inductive VResult where
  | ok (s : Summary)
  | err (msg : String)

/-- Sign extraction with the `|| 'Unknown'` fallback: absent entry,
absent label or empty label all degrade to the sentinel. -/
def rashiOf (meta : Body → Option Entry) (b : Body) : String :=
  match meta b with
  | none => "Unknown"
  | some e =>
    match e.rashi with
    | none => "Unknown"
    | some s => if s = "" then "Unknown" else s

/-- The message-rewrapping `catch` block of `getVedicAstrologyData`:
substring checks on the caught message decide the rethrown message. -/
def wrapError (m : String) : String :=
  if strContains m "Input validation failed" then
    "Invalid input parameters: " ++ m
  else if strContains m "vedic-astrology" || strContains m "package" then
    "Astrology calculation service is currently unavailable"
  else if strContains m "birth chart" || strContains m "meta" then
    "Failed to generate valid birth chart data"
  else
    "Astrology calculation failed: " ++ m

/-- `getVedicAstrologyData`, instrumented with the number of calls made
to the external `getBirthChart` routine (second component).  The control
flow follows the source: validation, package-availability check,
collaborator call, structural checks on the chart, then summary
construction; every raised error passes through `wrapError`. -/
def getVedicAstrologyDataRun (pkg : Package) (dateString timeString : String)
    (lat lng timezone : JSNum) : VResult × ℕ :=
  let errs := validateAstrologyInput dateString timeString lat lng timezone
  if errs ≠ [] then
    (.err (wrapError ("Input validation failed: " ++ String.intercalate ", " errs)), 0)
  else if !pkg.available then
    (.err (wrapError "Vedic astrology package not properly loaded or missing required methods"), 0)
  else
    match pkg.outcome with
    | .throws m => (.err (wrapError m), 1)
    | .returns c =>
      match c with
      | .notObject =>
        (.err (wrapError "Vedic astrology package returned null/undefined birth chart"), 1)
      | .noMeta =>
        (.err (wrapError "Birth chart missing required meta data"), 1)
      | .withMeta meta =>
        (.ok { moonSign := rashiOf meta .Mo, sunSign := rashiOf meta .Su,
               ascendant := rashiOf meta .As,
               atmakarak := calculateAtmakarak (.withMeta meta),
               birthChart := .withMeta meta }, 1)

/-- The endpoint-level `validateInput` of the categorized server: date
required / format / parse checks (no year-range check here), time
required / format checks, latitude and longitude presence and range
checks.  A NaN coordinate passes this level (no `isNaN` check). -/
def serverValidateInput (dateOfBirth timeOfBirth : Option String)
    (lat lng : Option JSNum) : List String :=
  (match dateOfBirth with
   | none => ["dateOfBirth is required and must be a string"]
   | some s =>
     if s = "" then ["dateOfBirth is required and must be a string"]
     else
       match dateFields s with
       | none => ["dateOfBirth must be in YYYY-MM-DD format"]
       | some (y, m, d) =>
         if !validCalendarDate y m d then ["dateOfBirth must be a valid date"]
         else []) ++
  (match timeOfBirth with
   | none => ["timeOfBirth is required and must be a string"]
   | some s =>
     if s = "" then ["timeOfBirth is required and must be a string"]
     else
       match timeFields s with
       | none => ["timeOfBirth must be in HH:MM:SS format"]
       | some _ => []) ++
  (match lat with
   | none => ["lat is required and must be a number"]
   | some n =>
     match n with
     | .nan => []
     | .fin q => if q < -90 ∨ 90 < q then ["lat must be between -90 and 90"] else []
     | .posInf => ["lat must be between -90 and 90"]
     | .negInf => ["lat must be between -90 and 90"]) ++
  (match lng with
   | none => ["lng is required and must be a number"]
   | some n =>
     match n with
     | .nan => []
     | .fin q => if q < -180 ∨ 180 < q then ["lng must be between -180 and 180"] else []
     | .posInf => ["lng must be between -180 and 180"]
     | .negInf => ["lng must be between -180 and 180"])

/-- The `catch` block of the categorized `/astrology-data` endpoint:
substring checks on the error message decide the HTTP status. -/
def classifyStatus (m : String) : ℕ :=
  if strContains m "Invalid date" || strContains m "Invalid time" then 400
  else if strContains m "coordinates" || strContains m "latitude" ||
      strContains m "longitude" then 400
  else if strContains m "Input validation failed" then 400
  else if strContains m "vedic-astrology" || strContains m "package" then 503
  else 500

/-- HTTP status returned by the categorized `/astrology-data` endpoint:
400 on endpoint-level validation failure, otherwise the service is
called with the default timezone offset +5.5 and a success answers 200
while an error message is classified by `classifyStatus`. -/
def astrologyEndpointStatus (pkg : Package)
    (dateOfBirth timeOfBirth : Option String) (lat lng : Option JSNum) : ℕ :=
  let vErrs := serverValidateInput dateOfBirth timeOfBirth lat lng
  if vErrs ≠ [] then 400
  else
    match dateOfBirth, timeOfBirth, lat, lng with
    | some d, some t, some la, some ln =>
      match (getVedicAstrologyDataRun pkg d t la ln (.fin (mkRat 11 2))).1 with
      | .ok _ => 200
      | .err m => classifyStatus m
    | _, _, _, _ => 400

/-! ### Invariants of the filtering scan -/

lemma scanStep_of_none {meta : Body → Option Entry} {b : Body}
    (h : validDegree meta b = none) (st : ℚ × Body × ℕ) :
    scanStep meta st b = st := by
  simp [scanStep, h]

lemma scanStep_of_some {meta : Body → Option Entry} {b : Body} {q : ℚ}
    (h : validDegree meta b = some q) (st : ℚ × Body × ℕ) :
    scanStep meta st b =
      if st.1 < q then (q, b, st.2.2 + 1) else (st.1, st.2.1, st.2.2 + 1) := by
  simp [scanStep, h]

/-- The valid-planet counter of the scan counts exactly the planets with
a valid degree. -/
lemma foldl_scan_count (meta : Body → Option Entry) (l : List Body) :
    ∀ (m : ℚ) (w : Body) (c : ℕ),
      (l.foldl (scanStep meta) (m, w, c)).2.2 =
        c + l.countP (fun b => (validDegree meta b).isSome) := by
  induction l with
  | nil => intro m w c; simp
  | cons b t ih =>
    intro m w c
    rw [List.foldl_cons, List.countP_cons]
    cases h : validDegree meta b with
    | none => simp [scanStep_of_none h, ih, h]
    | some q =>
      rw [scanStep_of_some h]
      by_cases hlt : m < q
      · rw [if_pos hlt]; simp [ih, h]; omega
      · rw [if_neg hlt]; simp [ih, h]; omega

/-- If every valid degree of the remaining planets is at most the
running maximum, the maximum and the winner never change. -/
lemma foldl_scan_keep (meta : Body → Option Entry) (l : List Body)
    (M : ℚ) (w : Body) :
    ∀ (c : ℕ), (∀ b ∈ l, (validDegree meta b).getD 0 ≤ M) →
      (l.foldl (scanStep meta) (M, w, c)).1 = M ∧
      (l.foldl (scanStep meta) (M, w, c)).2.1 = w := by
  induction l with
  | nil => intro c _; exact ⟨rfl, rfl⟩
  | cons b t ih =>
    intro c h
    rw [List.foldl_cons]
    cases hb : validDegree meta b with
    | none =>
      rw [scanStep_of_none hb]
      exact ih c (fun b' hb' => h b' (List.mem_cons_of_mem _ hb'))
    | some q =>
      have hq : q ≤ M := by
        have := h b (List.mem_cons_self _ _)
        rwa [hb, Option.getD_some] at this
      rw [scanStep_of_some hb, if_neg (not_lt.mpr hq)]
      exact ih (c + 1) (fun b' hb' => h b' (List.mem_cons_of_mem _ hb'))

/-- If every valid degree of the remaining planets is strictly below a
bound and the running maximum is too, the final maximum stays strictly
below the bound. -/
lemma foldl_scan_lt (meta : Body → Option Entry) (l : List Body) (M : ℚ) :
    ∀ (m : ℚ) (w : Body) (c : ℕ), m < M →
      (∀ b ∈ l, (validDegree meta b).getD 0 < M) →
      (l.foldl (scanStep meta) (m, w, c)).1 < M := by
  induction l with
  | nil => intro m w c hm _; exact hm
  | cons b t ih =>
    intro m w c hm h
    rw [List.foldl_cons]
    cases hb : validDegree meta b with
    | none =>
      rw [scanStep_of_none hb]
      exact ih m w c hm (fun b' hb' => h b' (List.mem_cons_of_mem _ hb'))
    | some q =>
      have hq : q < M := by
        have := h b (List.mem_cons_self _ _)
        rwa [hb, Option.getD_some] at this
      rw [scanStep_of_some hb]
      by_cases hlt : m < q
      · rw [if_pos hlt]
        exact ih q b (c + 1) hq (fun b' hb' => h b' (List.mem_cons_of_mem _ hb'))
      · rw [if_neg hlt]
        exact ih m w (c + 1) hm (fun b' hb' => h b' (List.mem_cons_of_mem _ hb'))

/-- Argmax invariant: if `p` occurs in the remaining planets with valid
degree `D`, the running maximum is strictly below `D`, every valid
degree is at most `D`, and every valid degree of a planet other than `p`
is strictly below `D`, then the scan ends with maximum `D` and winner
`p`. -/
lemma foldl_scan_argmax (meta : Body → Option Entry) (p : Body) (D : ℚ)
    (l : List Body) :
    ∀ (m : ℚ) (w : Body) (c : ℕ), p ∈ l → m < D →
      validDegree meta p = some D →
      (∀ b ∈ l, (validDegree meta b).getD 0 ≤ D) →
      (∀ b ∈ l, b ≠ p → (validDegree meta b).getD 0 < D) →
      (l.foldl (scanStep meta) (m, w, c)).1 = D ∧
      (l.foldl (scanStep meta) (m, w, c)).2.1 = p := by
  induction l with
  | nil => intro m w c hp; exact absurd hp (List.not_mem_nil p)
  | cons b t ih =>
    intro m w c hp hm hD hle hlt
    rw [List.foldl_cons]
    by_cases hbp : b = p
    · subst hbp
      rw [scanStep_of_some hD, if_pos hm]
      exact foldl_scan_keep meta t D b (c + 1)
        (fun b' hb' => hle b' (List.mem_cons_of_mem _ hb'))
    · have hpt : p ∈ t := by
        rcases List.mem_cons.mp hp with h | h
        · exact absurd h.symm hbp
        · exact h
      cases hb : validDegree meta b with
      | none =>
        rw [scanStep_of_none hb]
        exact ih m w c hpt hm hD
          (fun b' hb' => hle b' (List.mem_cons_of_mem _ hb'))
          (fun b' hb' => hlt b' (List.mem_cons_of_mem _ hb'))
      | some q =>
        have hq : q < D := by
          have := hlt b (List.mem_cons_self _ _) hbp
          rwa [hb, Option.getD_some] at this
        rw [scanStep_of_some hb]
        by_cases hmq : m < q
        · rw [if_pos hmq]
          exact ih q b (c + 1) hpt hq hD
            (fun b' hb' => hle b' (List.mem_cons_of_mem _ hb'))
            (fun b' hb' => hlt b' (List.mem_cons_of_mem _ hb'))
        · rw [if_neg hmq]
          exact ih m w (c + 1) hpt hm hD
            (fun b' hb' => hle b' (List.mem_cons_of_mem _ hb'))
            (fun b' hb' => hlt b' (List.mem_cons_of_mem _ hb'))

/-! ### Example charts used by witnesses and counterexamples -/

/-- Chart with all seven degrees present, valid and distinct; Saturn has
the largest degree. -/
def exMetaMax : Body → Option Entry
  | .Su => some { degree := some (.num (.fin 10)) }
  | .Mo => some { degree := some (.num (.fin 20)) }
  | .Ma => some { degree := some (.num (.fin 30)) }
  | .Me => some { degree := some (.num (.fin 40)) }
  | .Ju => some { degree := some (.num (.fin 50)) }
  | .Ve => some { degree := some (.num (.fin 60)) }
  | .Sa => some { degree := some (.num (.fin 70)) }
  | .As => none

/-- The degree function of `exMetaMax`. -/
def exDegMax : Body → ℚ
  | .Su => 10
  | .Mo => 20
  | .Ma => 30
  | .Me => 40
  | .Ju => 50
  | .Ve => 60
  | .Sa => 70
  | .As => 0

/-- Chart where only Moon and Mars have valid data, both at degree 0. -/
def exMetaTie : Body → Option Entry
  | .Mo => some { degree := some (.num (.fin 0)) }
  | .Ma => some { degree := some (.num (.fin 0)) }
  | _ => none

/-- The tie example of the specification: Sun degree = Mars degree =
200, all other degrees strictly lower. -/
def exMetaTieW : Body → Option Entry
  | .Su => some { degree := some (.num (.fin 200)) }
  | .Mo => some { degree := some (.num (.fin 50)) }
  | .Ma => some { degree := some (.num (.fin 200)) }
  | .Me => some { degree := some (.num (.fin 60)) }
  | .Ju => some { degree := some (.num (.fin 70)) }
  | .Ve => some { degree := some (.num (.fin 80)) }
  | .Sa => some { degree := some (.num (.fin 90)) }
  | .As => none

/-! ### Claim theorems -/

/-- Claim C1: for every chart whose seven candidate planets all have a
numeric degree field in [0, 360] with pairwise distinct degrees, the
filtering `calculateAtmakarak` returns the full English name of the
planet whose degree is numerically largest. -/
theorem atmakarak_returns_max (meta : Body → Option Entry) (d : Body → ℚ)
    (p : Body)
    (hall : ∀ b ∈ planets,
      metaDegree meta b = some (.num (.fin (d b))) ∧ 0 ≤ d b ∧ d b ≤ 360)
    (hdist : ∀ b ∈ planets, ∀ b2 ∈ planets, b ≠ b2 → d b ≠ d b2)
    (hp : p ∈ planets) (hple : ∀ b ∈ planets, d b ≤ d p) :
    calculateAtmakarak (Chart.withMeta meta) = planetName p := by
  have hval : ∀ b ∈ planets, validDegree meta b = some (d b) := by
    intro b hb
    obtain ⟨h1, h2, h3⟩ := hall b hb
    simp [validDegree, h1, h2, h3]
  have hstrict : ∀ b ∈ planets, b ≠ p → d b < d p := fun b hb hbp =>
    lt_of_le_of_ne (hple b hb) (hdist b hb p hp hbp)
  have hpos : 0 < d p := by
    rcases eq_or_ne p Body.Su with rfl | hsu
    · exact lt_of_le_of_lt (hall Body.Mo (by decide)).2.1
        (hstrict Body.Mo (by decide) (by decide))
    · exact lt_of_le_of_lt (hall Body.Su (by decide)).2.1
        (hstrict Body.Su (by decide) hsu.symm)
  have harg := foldl_scan_argmax meta p (d p) planets 0 Body.Su 0 hp hpos
    (hval p hp)
    (fun b hb => by rw [hval b hb, Option.getD_some]; exact hple b hb)
    (fun b hb hbp => by rw [hval b hb, Option.getD_some]; exact hstrict b hb hbp)
  have hcnt := foldl_scan_count meta planets 0 Body.Su 0
  have hlen : planets.countP (fun b => (validDegree meta b).isSome) =
      planets.length :=
    List.countP_eq_length.mpr (fun b hb => by rw [hval b hb]; rfl)
  have hne : (planets.foldl (scanStep meta) (0, Body.Su, 0)).2.2 ≠ 0 := by
    rw [hcnt, hlen]; simp [planets]
  simp only [calculateAtmakarak]
  rw [if_neg hne, harg.2]

/-- Witness for C1: on `exMetaMax` the result is Saturn, the planet with
the largest degree. -/
theorem atmakarak_returns_max_witness :
    calculateAtmakarak (Chart.withMeta exMetaMax) = "Saturn" :=
  (atmakarak_returns_max exMetaMax exDegMax Body.Sa
    (by decide) (by decide) (by decide) (by decide)).trans (by decide)

/-- Counterexample to claim C2 as stated: in `exMetaTie`, Moon and Mars
share the maximum valid degree (which is 0) and Moon comes earlier in
the iteration order, yet the function returns "Sun" — the strict
comparison against the 0-initialized maximum lets no planet at degree 0
displace the default winner. -/
theorem atmakarak_tie_counterexample :
    validDegree exMetaTie Body.Mo = some 0 ∧
    validDegree exMetaTie Body.Ma = some 0 ∧
    validDegree exMetaTie Body.Su = none ∧
    validDegree exMetaTie Body.Me = none ∧
    validDegree exMetaTie Body.Ju = none ∧
    validDegree exMetaTie Body.Ve = none ∧
    validDegree exMetaTie Body.Sa = none ∧
    calculateAtmakarak (Chart.withMeta exMetaTie) = "Sun" ∧
    planetName Body.Mo = "Moon" ∧ ("Sun" : String) ≠ "Moon" := by
  decide

/-- Claim C2 as amended: whenever the maximum valid degree `M` is
strictly positive, the planet that attains it earliest in the fixed
iteration order (here: `p`, with every earlier planet strictly below
`M`) wins — in particular every tie at a positive maximum is broken in
favour of the earlier planet. -/
theorem atmakarak_first_max (meta : Body → Option Entry) (M : ℚ) (p : Body)
    (l1 l2 : List Body)
    (hsplit : planets = l1 ++ p :: l2)
    (hMpos : 0 < M)
    (hp : validDegree meta p = some M)
    (hle : ∀ b ∈ planets, (validDegree meta b).getD 0 ≤ M)
    (hbefore : ∀ b ∈ l1, (validDegree meta b).getD 0 < M) :
    calculateAtmakarak (Chart.withMeta meta) = planetName p := by
  have hmem : p ∈ planets := by
    rw [hsplit]; exact List.mem_append_right l1 (List.mem_cons_self p l2)
  have h1 : (l1.foldl (scanStep meta) (0, Body.Su, 0)).1 < M :=
    foldl_scan_lt meta l1 M 0 Body.Su 0 hMpos hbefore
  have hle2 : ∀ b ∈ l2, (validDegree meta b).getD 0 ≤ M := fun b hb =>
    hle b (by rw [hsplit]; exact List.mem_append_right _ (List.mem_cons_of_mem _ hb))
  have hwin : (planets.foldl (scanStep meta) (0, Body.Su, 0)).2.1 = p := by
    rw [hsplit, List.foldl_append, List.foldl_cons, scanStep_of_some hp,
      if_pos h1]
    exact (foldl_scan_keep meta l2 M p _ hle2).2
  have hcnt := foldl_scan_count meta planets 0 Body.Su 0
  have hpos : 0 < planets.countP (fun b => (validDegree meta b).isSome) :=
    List.countP_pos_iff.mpr ⟨p, hmem, by rw [hp]; rfl⟩
  have hne : (planets.foldl (scanStep meta) (0, Body.Su, 0)).2.2 ≠ 0 := by
    rw [hcnt]; omega
  simp only [calculateAtmakarak]
  rw [if_neg hne, hwin]

/-- Witness for the amended C2, on the example of the specification:
Sun degree = Mars degree = 200, all others strictly lower, and the
result is "Sun". -/
theorem atmakarak_first_max_witness :
    calculateAtmakarak (Chart.withMeta exMetaTieW) = "Sun" :=
  (atmakarak_first_max exMetaTieW 200 Body.Su []
    [Body.Mo, Body.Ma, Body.Me, Body.Ju, Body.Ve, Body.Sa]
    (by decide) (by decide) (by decide) (by decide) (by decide)).trans (by decide)

/-- Chart whose `meta` mapping is present but carries no entries. -/
def exMetaEmpty : Body → Option Entry := fun _ => none

/-- Claim C3: a chart in which no candidate planet has a present,
numeric, in-range degree yields the default "Sun".  The embedding of
`calculateAtmakarak` is a total function, mirroring the source whose
`catch` wrapper turns every fault into the same default, so no fault is
raised. -/
theorem atmakarak_default_on_no_valid (c : Chart)
    (h : ∀ b ∈ planets, chartValidDegree c b = none) :
    calculateAtmakarak c = "Sun" := by
  cases c with
  | notObject => rfl
  | noMeta => rfl
  | withMeta meta =>
    have h' : ∀ b ∈ planets, validDegree meta b = none := fun b hb => h b hb
    have hcnt := foldl_scan_count meta planets 0 Body.Su 0
    have h0 : planets.countP (fun b => (validDegree meta b).isSome) = 0 :=
      List.countP_eq_zero.mpr (fun b hb => by rw [h' b hb]; simp)
    have hz : (planets.foldl (scanStep meta) (0, Body.Su, 0)).2.2 = 0 := by
      rw [hcnt, h0]
    simp only [calculateAtmakarak]
    rw [if_pos hz]

/-- Witness for C3: a chart with an empty `meta` mapping yields "Sun". -/
theorem atmakarak_default_on_no_valid_witness :
    calculateAtmakarak (Chart.withMeta exMetaEmpty) = "Sun" :=
  atmakarak_default_on_no_valid (Chart.withMeta exMetaEmpty) (by decide)

/-- Claim C4: on every chart value — falsy or non-object input, missing
`meta`, or arbitrarily malformed per-planet entries — the filtering
`calculateAtmakarak` terminates (it is a total function) and returns a
non-empty string that is one of the seven full planet names. -/
theorem atmakarak_always_planet_name (c : Chart) :
    calculateAtmakarak c ≠ "" ∧
    calculateAtmakarak c ∈
      ["Sun", "Moon", "Mars", "Mercury", "Jupiter", "Venus", "Saturn"] := by
  have hname : ∀ b : Body, planetName b ≠ "" ∧ planetName b ∈
      ["Sun", "Moon", "Mars", "Mercury", "Jupiter", "Venus", "Saturn"] := by
    intro b; cases b <;> exact ⟨by decide, by decide⟩
  cases c with
  | notObject => exact ⟨by decide, by decide⟩
  | noMeta => exact ⟨by decide, by decide⟩
  | withMeta meta =>
    simp only [calculateAtmakarak]
    by_cases hz : (planets.foldl (scanStep meta) (0, Body.Su, 0)).2.2 = 0
    · rw [if_pos hz]; exact ⟨by decide, by decide⟩
    · rw [if_neg hz]; exact hname _

/-- Chart with every degree field exactly 360. -/
def exMeta360 : Body → Option Entry :=
  fun _ => some { degree := some (.num (.fin 360)) }

/-- Chart with every degree field 360.0001. -/
def exMetaOver : Body → Option Entry :=
  fun _ => some { degree := some (.num (.fin (mkRat 3600001 10000))) }

/-- Chart with every degree field -0.0001. -/
def exMetaNeg : Body → Option Entry :=
  fun _ => some { degree := some (.num (.fin (mkRat (-1) 10000))) }

/-- Claim C5: in the per-planet filter, a numeric degree of exactly 0 or
exactly 360 counts as valid and enters the comparison, while a degree
strictly below 0 or strictly above 360 makes the planet skip the scan
entirely — its step leaves the scan state unchanged instead of acting as
a zero degree. -/
theorem validDegree_boundary (meta : Body → Option Entry) (p : Body) (q : ℚ)
    (h : metaDegree meta p = some (.num (.fin q))) :
    ((0 ≤ q ∧ q ≤ 360) → validDegree meta p = some q) ∧
    ((q < 0 ∨ 360 < q) → validDegree meta p = none ∧
      ∀ st, scanStep meta st p = st) := by
  constructor
  · intro hr; simp [validDegree, h, hr.1, hr.2]
  · intro hr
    have hnr : ¬(0 ≤ q ∧ q ≤ 360) := by
      rcases hr with h1 | h1
      · exact fun hc => absurd hc.1 (not_le.mpr h1)
      · exact fun hc => absurd hc.2 (not_le.mpr h1)
    have hnone : validDegree meta p = none := by simp [validDegree, h, hnr]
    exact ⟨hnone, fun st => scanStep_of_none hnone st⟩

/-- Witness for C5: degree 360 is valid; degrees 360.0001 and -0.0001
are invalid and their scan steps are no-ops. -/
theorem validDegree_boundary_witness :
    validDegree exMeta360 Body.Su = some 360 ∧
    validDegree exMetaOver Body.Su = none ∧
    scanStep exMetaOver (0, Body.Su, 0) Body.Su = (0, Body.Su, 0) ∧
    validDegree exMetaNeg Body.Su = none ∧
    scanStep exMetaNeg (0, Body.Su, 0) Body.Su = (0, Body.Su, 0) :=
  ⟨(validDegree_boundary exMeta360 Body.Su 360 (by decide)).1 (by decide),
   ((validDegree_boundary exMetaOver Body.Su (mkRat 3600001 10000)
      (by decide)).2 (by decide)).1,
   ((validDegree_boundary exMetaOver Body.Su (mkRat 3600001 10000)
      (by decide)).2 (by decide)).2 (0, Body.Su, 0),
   ((validDegree_boundary exMetaNeg Body.Su (mkRat (-1) 10000)
      (by decide)).2 (by decide)).1,
   ((validDegree_boundary exMetaNeg Body.Su (mkRat (-1) 10000)
      (by decide)).2 (by decide)).2 (0, Body.Su, 0)⟩

/-- Chart where the only valid planet is Moon, at exactly 0 degrees. -/
def exMetaZero : Body → Option Entry
  | .Mo => some { degree := some (.num (.fin 0)) }
  | _ => none

/-- Claim C10: when the only planet with a present, numeric, in-range
degree is a planet other than Sun and that degree is exactly 0, the
filtering `calculateAtmakarak` returns "Sun" rather than that planet:
the strict comparison against the 0-initialized maximum never lets a
planet at exactly 0 degrees win. -/
theorem atmakarak_zero_never_wins (meta : Body → Option Entry) (p : Body)
    (hp : p ∈ planets) (hne : p ≠ Body.Su)
    (h0 : validDegree meta p = some 0)
    (hrest : ∀ b ∈ planets, b ≠ p → validDegree meta b = none) :
    calculateAtmakarak (Chart.withMeta meta) = "Sun" ∧
    calculateAtmakarak (Chart.withMeta meta) ≠ planetName p := by
  have hkeep := foldl_scan_keep meta planets 0 Body.Su 0 (fun b hb => by
    by_cases hbp : b = p
    · subst hbp; simp [h0]
    · simp [hrest b hb hbp])
  have hcnt := foldl_scan_count meta planets 0 Body.Su 0
  have hposc : 0 < planets.countP (fun b => (validDegree meta b).isSome) :=
    List.countP_pos_iff.mpr ⟨p, hp, by rw [h0]; rfl⟩
  have hnz : (planets.foldl (scanStep meta) (0, Body.Su, 0)).2.2 ≠ 0 := by
    rw [hcnt]; omega
  have hres : calculateAtmakarak (Chart.withMeta meta) = "Sun" := by
    simp only [calculateAtmakarak]
    rw [if_neg hnz, hkeep.2]
    rfl
  refine ⟨hres, ?_⟩
  rw [hres]
  cases p with
  | Su => exact absurd rfl hne
  | Mo => decide
  | Ma => decide
  | Me => decide
  | Ju => decide
  | Ve => decide
  | Sa => decide
  | As => exact absurd hp (by decide)

/-- Witness for C10: Moon alone at 0 degrees does not win; the result is
"Sun". -/
theorem atmakarak_zero_never_wins_witness :
    calculateAtmakarak (Chart.withMeta exMetaZero) = "Sun" ∧
    calculateAtmakarak (Chart.withMeta exMetaZero) ≠ planetName Body.Mo :=
  atmakarak_zero_never_wins exMetaZero Body.Mo
    (by decide) (by decide) (by decide) (by decide)

/-! ### Agreement of the two Atmakarak versions on fully valid charts -/

/-- On planets whose filtering degree and coercing degree agree on a
finite value, the two scans run in lock step: the coercing state is the
(maximum, winner) part of the filtering state. -/
lemma foldl_v2_corr (meta : Body → Option Entry) (d : Body → ℚ)
    (l : List Body) :
    ∀ (m : ℚ) (w : Body) (c : ℕ),
      (∀ b ∈ l, validDegree meta b = some (d b) ∧
        v2degree meta b = .fin (d b)) →
      l.foldl (v2step meta) (.fin m, w) =
        (.fin (l.foldl (scanStep meta) (m, w, c)).1,
         (l.foldl (scanStep meta) (m, w, c)).2.1) := by
  induction l with
  | nil => intro m w c _; rfl
  | cons b t ih =>
    intro m w c h
    obtain ⟨h1, h2⟩ := h b (List.mem_cons_self _ _)
    have ht : ∀ b' ∈ t, validDegree meta b' = some (d b') ∧
        v2degree meta b' = .fin (d b') :=
      fun b' hb' => h b' (List.mem_cons_of_mem _ hb')
    have hstep : v2step meta (JSNum.fin m, w) b =
        if m < d b then (JSNum.fin (d b), b) else (JSNum.fin m, w) := by
      simp [v2step, h2, jsGt]
    rw [List.foldl_cons, List.foldl_cons, scanStep_of_some h1, hstep]
    by_cases hlt : m < d b
    · rw [if_pos hlt, if_pos hlt]
      exact ih (d b) b (c + 1) ht
    · rw [if_neg hlt, if_neg hlt]
      exact ih m w (c + 1) ht

/-- Claim C9: the filtering version and the coercing version of the
Atmakarak computation return the same planet name for every chart whose
`meta` mapping is present and whose seven candidate planets all carry a
numeric degree field within [0, 360] (the coercing version returns
`some` of the name because it cannot raise on such a chart). -/
theorem atmakarak_versions_agree (meta : Body → Option Entry) (d : Body → ℚ)
    (hall : ∀ b ∈ planets,
      metaDegree meta b = some (.num (.fin (d b))) ∧ 0 ≤ d b ∧ d b ≤ 360) :
    calculateAtmakarakV2 (Chart.withMeta meta) =
      some (calculateAtmakarak (Chart.withMeta meta)) := by
  have hboth : ∀ b ∈ planets, validDegree meta b = some (d b) ∧
      v2degree meta b = .fin (d b) := by
    intro b hb
    obtain ⟨h1, h2, h3⟩ := hall b hb
    exact ⟨by simp [validDegree, h1, h2, h3], by simp [v2degree, h1, coerceVal]⟩
  have hcorr := foldl_v2_corr meta d planets 0 Body.Su 0 hboth
  have hcnt := foldl_scan_count meta planets 0 Body.Su 0
  have hlen : planets.countP (fun b => (validDegree meta b).isSome) =
      planets.length :=
    List.countP_eq_length.mpr (fun b hb => by rw [(hboth b hb).1]; rfl)
  have hne : (planets.foldl (scanStep meta) (0, Body.Su, 0)).2.2 ≠ 0 := by
    rw [hcnt, hlen]; simp [planets]
  simp only [calculateAtmakarak, calculateAtmakarakV2]
  rw [if_neg hne, hcorr]

/-- Witness for C9: on `exMetaMax` both versions return Saturn. -/
theorem atmakarak_versions_agree_witness :
    calculateAtmakarakV2 (Chart.withMeta exMetaMax) =
      some (calculateAtmakarak (Chart.withMeta exMetaMax)) :=
  atmakarak_versions_agree exMetaMax exDegMax (by decide)

/-! ### Validator and service-boundary claims -/

/-- Counterexample to claim C6 as stated: the time string "99:99:99" is
the single malformed field (date, latitude, longitude and timezone are
all valid), yet the validator returns three violation strings, one per
out-of-range time component — not exactly one. -/
theorem validate_single_field_counterexample :
    dateErrors "2000-01-01" = [] ∧
    latErrors (.fin 0) = [] ∧ lngErrors (.fin 0) = [] ∧
    timezoneErrors (.fin 0) = [] ∧
    validateAstrologyInput "2000-01-01" "99:99:99" (.fin 0) (.fin 0) (.fin 0)
      = ["Hours must be between 00 and 23", "Minutes must be between 00 and 59",
         "Seconds must be between 00 and 59"] ∧
    (validateAstrologyInput "2000-01-01" "99:99:99"
      (.fin 0) (.fin 0) (.fin 0)).length ≠ 1 := by
  decide

/-- Claim C6 as amended: when exactly one field is malformed or out of
range and every other field is valid, the validator returns exactly that
field's violation list — nonempty, one entry per broken rule (so a time
string with several out-of-range components yields one violation per
component) — and no violation for any other field. -/
theorem validate_single_field (d t : String) (la ln tz : JSNum) :
    (dateErrors d ≠ [] ∧ timeErrors t = [] ∧ latErrors la = [] ∧
      lngErrors ln = [] ∧ timezoneErrors tz = [] →
      validateAstrologyInput d t la ln tz = dateErrors d) ∧
    (dateErrors d = [] ∧ timeErrors t ≠ [] ∧ latErrors la = [] ∧
      lngErrors ln = [] ∧ timezoneErrors tz = [] →
      validateAstrologyInput d t la ln tz = timeErrors t) ∧
    (dateErrors d = [] ∧ timeErrors t = [] ∧ latErrors la ≠ [] ∧
      lngErrors ln = [] ∧ timezoneErrors tz = [] →
      validateAstrologyInput d t la ln tz = latErrors la) ∧
    (dateErrors d = [] ∧ timeErrors t = [] ∧ latErrors la = [] ∧
      lngErrors ln ≠ [] ∧ timezoneErrors tz = [] →
      validateAstrologyInput d t la ln tz = lngErrors ln) ∧
    (dateErrors d = [] ∧ timeErrors t = [] ∧ latErrors la = [] ∧
      lngErrors ln = [] ∧ timezoneErrors tz ≠ [] →
      validateAstrologyInput d t la ln tz = timezoneErrors tz) := by
  refine ⟨?_, ?_, ?_, ?_, ?_⟩ <;>
    rintro ⟨h1, h2, h3, h4, h5⟩ <;>
    simp [validateAstrologyInput, h1, h2, h3, h4, h5]

/-- Witness for the amended C6: a date whose year is below 1900 is the
single bad field and produces exactly its one violation. -/
theorem validate_single_field_witness :
    validateAstrologyInput "1890-06-15" "14:30:00" (.fin 0) (.fin 0) (.fin 0)
      = ["Date must be between 1900 and 2100"] :=
  ((validate_single_field "1890-06-15" "14:30:00"
    (.fin 0) (.fin 0) (.fin 0)).1 (by decide)).trans (by decide)

lemma hasSubList_of_isPrefixOf {p l : List Char}
    (h : p.isPrefixOf l = true) : hasSubList p l = true := by
  cases l with
  | nil =>
    cases p with
    | nil => rfl
    | cons c t => simp [List.isPrefixOf] at h
  | cons c t => simp [hasSubList, h]

/-- A string always contains any of its prefixes. -/
lemma strContains_append_left (pat rest : String) :
    strContains (pat ++ rest) pat = true := by
  have hpre : pat.toList.isPrefixOf (pat ++ rest).toList = true := by
    have : (pat ++ rest).toList = pat.toList ++ rest.toList :=
      String.data_append pat rest
    rw [this, List.isPrefixOf_iff_prefix]
    exact List.prefix_append _ _
  exact hasSubList_of_isPrefixOf hpre

/-- The rewrapping of a validation failure keeps the full message and
adds the "Invalid input parameters" context. -/
lemma wrapError_validation (s : String) :
    wrapError ("Input validation failed: " ++ s) =
      "Invalid input parameters: " ++ ("Input validation failed: " ++ s) := by
  have hsplit : ("Input validation failed: " ++ s) =
      "Input validation failed" ++ (": " ++ s) := by
    rw [← String.append_assoc]
    have : ("Input validation failed" ++ ": " : String) =
        "Input validation failed: " := by decide
    rw [this]
  have h : strContains ("Input validation failed: " ++ s)
      "Input validation failed" = true := by
    rw [hsplit]; exact strContains_append_left _ _
  simp [wrapError, h]

/-- Claim C7: whenever `validateAstrologyInput` returns a non-empty
violation list, `getVedicAstrologyData` raises the input-validation
error (carrying the full joined violation list) and the external
`getBirthChart` routine is called zero times. -/
theorem vedic_rejects_before_call (pkg : Package) (d t : String)
    (la ln tz : JSNum)
    (h : validateAstrologyInput d t la ln tz ≠ []) :
    getVedicAstrologyDataRun pkg d t la ln tz =
      (.err ("Invalid input parameters: Input validation failed: " ++
        String.intercalate ", " (validateAstrologyInput d t la ln tz)), 0) := by
  simp only [getVedicAstrologyDataRun]
  rw [if_pos h, wrapError_validation, ← String.append_assoc]
  have : ("Invalid input parameters: " ++ "Input validation failed: " : String)
      = "Invalid input parameters: Input validation failed: " := by decide
  rw [this]

/-- Witness for C7: an empty date string fails validation, the service
raises the wrapped validation error and the collaborator is not
called. -/
theorem vedic_rejects_before_call_witness :
    getVedicAstrologyDataRun ⟨true, .returns Chart.notObject⟩
        "" "14:30:00" (.fin 0) (.fin 0) (.fin 0)
      = (.err ("Invalid input parameters: Input validation failed: " ++
          String.intercalate ", "
            (validateAstrologyInput "" "14:30:00" (.fin 0) (.fin 0) (.fin 0))), 0) :=
  vedic_rejects_before_call ⟨true, .returns Chart.notObject⟩
    "" "14:30:00" (.fin 0) (.fin 0) (.fin 0) (by decide)

/-- Claim C8 fails on the code: for a fully valid request with the
external package unavailable — a collaborator-unavailable fault — the
categorized endpoint answers 500, not the 503 the specification
prescribes.  The service rewraps the original message (which contains
"package") into "Astrology calculation service is currently
unavailable", which contains neither "package" nor "vedic-astrology",
so the 503 branch of the endpoint never matches. -/
theorem endpoint_unavailable_returns_500 :
    serverValidateInput (some "1990-06-15") (some "14:30:00")
        (some (.fin (mkRat 286 10))) (some (.fin (mkRat 772 10))) = [] ∧
    validateAstrologyInput "1990-06-15" "14:30:00"
        (.fin (mkRat 286 10)) (.fin (mkRat 772 10)) (.fin (mkRat 11 2)) = [] ∧
    (getVedicAstrologyDataRun ⟨false, .returns .notObject⟩
        "1990-06-15" "14:30:00" (.fin (mkRat 286 10)) (.fin (mkRat 772 10))
        (.fin (mkRat 11 2))).1
      = .err "Astrology calculation service is currently unavailable" ∧
    astrologyEndpointStatus ⟨false, .returns .notObject⟩
        (some "1990-06-15") (some "14:30:00")
        (some (.fin (mkRat 286 10))) (some (.fin (mkRat 772 10))) = 500 ∧
    (500 : ℕ) ≠ 503 := by
  refine ⟨by decide, by decide, ?_, by decide, by decide⟩
  rfl

end VedicService
